import Mathlib

/-!
# Verification of the transactional-outbox order service

Shallow embedding of the repository's two executables:

* `src/Question_2/src/index.js` — the HTTP writer service: the
  `POST /orders` handler (transactional writer), the `GET /orders/:id`
  reader, and the Mongoose data model (`models.js`);
* the outbox relay worker (`worker` file): the `publish` stub and the
  periodic `run` tick that selects PENDING outbox events, hands each to
  the publisher, and records the outcome.

Numbers are modelled as exact rationals; JavaScript `Math.round` is
`jsRound q = ⌊q + 1/2⌋` (round half toward positive infinity), so
`Math.round(x*100)/100` becomes `round2`.  MongoDB documents become
records in lists; `_id` values are naturals drawn from a store counter,
which also serves as the `createdAt` timestamp (creation order).  A
MongoDB transaction is all-or-nothing: the writer builds the tentative
store and a failure at any step (modelled by an injected failing step
carrying the underlying cause) aborts back to the original store.
Publisher outcomes are `Except String Bool`: `.ok v` is a normal return
with value `v`, `.error e` is a thrown error whose string form is `e`.
-/

namespace Outbox

/-! ## Definitions: data model, writer, reader, relay, samples -/

/-- JavaScript `Math.round`: round half toward positive infinity. -/
def jsRound (q : ℚ) : ℤ := ⌊q + 1 / 2⌋

/-- `Math.round(x * 100) / 100`: round to 2 decimal places, half-up. -/
def round2 (q : ℚ) : ℚ := (jsRound (q * 100) : ℚ) / 100

/-- Outbox event status (`models.js`: enum PENDING / SENT / FAILED). -/
inductive Status where
  | PENDING
  | SENT
  | FAILED
deriving DecidableEq, Repr

/-- One element of `POST /orders`' request `items` array. -/
structure InputItem where
  sku : String
  name : String
  unitPrice : ℚ
  quantity : ℕ
deriving DecidableEq, Repr

/-- An input item enriched with its computed `lineTotal` (`index.js` line 33). -/
structure ItemWithTotal where
  sku : String
  name : String
  unitPrice : ℚ
  quantity : ℕ
  lineTotal : ℚ
deriving DecidableEq, Repr

/-- Denormalized order summary entry (`models.js` `itemsSummary`). -/
structure SummaryItem where
  sku : String
  quantity : ℕ
  lineTotal : ℚ
deriving DecidableEq, Repr

/-- An `Order` document (`models.js` `OrderSchema`). -/
structure Order where
  id : ℕ
  customerId : String
  currency : String
  status : String
  itemsSummary : List SummaryItem
  grandTotal : ℚ
  createdAt : ℕ
deriving DecidableEq, Repr

/-- An `OrderItem` document (`models.js` `OrderItemSchema`). -/
structure OrderItem where
  id : ℕ
  orderId : ℕ
  sku : String
  name : String
  unitPrice : ℚ
  quantity : ℕ
  lineTotal : ℚ
deriving DecidableEq, Repr

/-- The outbox event payload built at `index.js` lines 69-75. -/
structure Payload where
  orderId : String
  customerId : String
  currency : String
  grandTotal : ℚ
  items : List ItemWithTotal
deriving DecidableEq, Repr

/-- An `OutboxEvent` document (`models.js` `OutboxEventSchema`). -/
structure OutboxEvent where
  id : ℕ
  type : String
  aggregateId : String
  payload : Payload
  status : Status
  lastError : Option String
  createdAt : ℕ
deriving DecidableEq, Repr

/-- The entity store: the three MongoDB collections plus an id/time counter. -/
structure Store where
  orders : List Order
  orderItems : List OrderItem
  outbox : List OutboxEvent
  nextId : ℕ
deriving DecidableEq, Repr

/-- The empty store. -/
def emptyStore : Store := { orders := [], orderItems := [], outbox := [], nextId := 0 }

/-- The validated body of `POST /orders`. -/
structure CreateOrderInput where
  customerId : String
  currency : String
  items : List InputItem
deriving DecidableEq, Repr

/-- HTTP response bodies produced by the two order routes. -/
inductive Body where
  | orderCreated (orderId : ℕ) (grandTotal : ℚ) (currency : String) (status : String)
  | failure (error : String)
  | orderDetail (order : Order) (items : List OrderItem)
deriving DecidableEq, Repr

/-- An HTTP response: status code and JSON body. -/
structure Response where
  status : ℕ
  body : Body
deriving DecidableEq, Repr

/-- `lineTotal = Math.round((unitPrice * quantity) * 100) / 100` (`index.js` line 35). -/
def lineTotalOf (i : InputItem) : ℚ := round2 (i.unitPrice * (i.quantity : ℚ))

/-- `itemsWithTotals` (`index.js` lines 33-36): each input item with its line total. -/
def itemsWithTotalsOf (items : List InputItem) : List ItemWithTotal :=
  items.map fun i =>
    { sku := i.sku, name := i.name, unitPrice := i.unitPrice, quantity := i.quantity,
      lineTotal := lineTotalOf i }

/-- `grandTotal` (`index.js` line 37): reduce over the line totals, rounded again. -/
def grandTotalOf (items : List InputItem) : ℚ :=
  round2 ((itemsWithTotalsOf items).foldl (fun s i => s + i.lineTotal) 0)

/-- Which of the four transaction steps (order insert, items insert, outbox
insert, commit) the injected failure hits, with the underlying cause. -/
def stepFails (failAt : Option (Fin 4 × String)) (k : Fin 4) : Option String :=
  match failAt with
  | some (j, msg) => if j = k then some msg else none
  | none => none

/-- The body of the `POST /orders` transaction (`index.js` lines 39-80):
insert the Order, the OrderItems, and the OutboxEvent into the session's
tentative store; a failure at any step throws the underlying cause.
Returns the committed store and the new order id. -/
def runTxn (s : Store) (inp : CreateOrderInput) (iw : List ItemWithTotal) (gt : ℚ)
    (failAt : Option (Fin 4 × String)) : Except String (Store × ℕ) :=
  let orderId := s.nextId
  let order : Order :=
    { id := orderId, customerId := inp.customerId, currency := inp.currency,
      status := "CONFIRMED",
      itemsSummary := iw.map fun i => { sku := i.sku, quantity := i.quantity, lineTotal := i.lineTotal },
      grandTotal := gt, createdAt := s.nextId }
  let s1 : Store := { s with orders := s.orders ++ [order], nextId := s.nextId + 1 }
  match stepFails failAt 0 with
  | some msg => .error msg
  | none =>
    let itemsDocs : List OrderItem := s1.nextId |> fun base =>
      (iw.enum).map fun p =>
        { id := base + p.1, orderId := orderId, sku := p.2.sku, name := p.2.name,
          unitPrice := p.2.unitPrice, quantity := p.2.quantity, lineTotal := p.2.lineTotal }
    let s2 : Store :=
      { s1 with orderItems := s1.orderItems ++ itemsDocs, nextId := s1.nextId + iw.length }
    match stepFails failAt 1 with
    | some msg => .error msg
    | none =>
      let evt : OutboxEvent :=
        { id := s2.nextId, type := "ORDER_CREATED", aggregateId := toString orderId,
          payload :=
            { orderId := toString orderId, customerId := inp.customerId,
              currency := inp.currency, grandTotal := gt, items := iw },
          status := .PENDING, lastError := none, createdAt := s2.nextId }
      let s3 : Store := { s2 with outbox := s2.outbox ++ [evt], nextId := s2.nextId + 1 }
      match stepFails failAt 2 with
      | some msg => .error msg
      | none =>
        match stepFails failAt 3 with
        | some msg => .error msg
        | none => .ok (s3, orderId)

/-- The `POST /orders` handler (`index.js` lines 25-92): compute totals, run
the transaction; on success commit and answer 201, on any failure abort
(store unchanged) and answer `500 {error: "OrderCreationFailed"}`. -/
def createOrder (s : Store) (inp : CreateOrderInput) (failAt : Option (Fin 4 × String)) :
    Store × Response :=
  let iw := itemsWithTotalsOf inp.items
  let gt := grandTotalOf inp.items
  match runTxn s inp iw gt failAt with
  | .ok (s3, orderId) =>
    (s3, { status := 201, body := .orderCreated orderId gt inp.currency "CONFIRMED" })
  | .error _ =>
    (s, { status := 500, body := .failure "OrderCreationFailed" })

/-- The `GET /orders/:id` handler (`index.js` lines 94-99): find the order by
id; 404 `NotFound` when absent, otherwise 200 with the order and its items. -/
def getOrder (s : Store) (i : ℕ) : Response :=
  match s.orders.find? (fun o => o.id = i) with
  | none => { status := 404, body := .failure "NotFound" }
  | some o =>
    { status := 200, body := .orderDetail o (s.orderItems.filter fun it => it.orderId = o.id) }

/-- The worker's `publish` stub: `return true` — simulated success,
never throws (`worker` lines 8-13). -/
def publish (_evt : OutboxEvent) : Except String Bool := .ok true

/-- The relay batch bound: `const BATCH = 50` (`worker` line 22). -/
def BATCH : ℕ := 50

/-- Creation-time order on outbox events (`sort({ createdAt: 1 })`). -/
def createdLE (a b : OutboxEvent) : Prop := a.createdAt ≤ b.createdAt

instance : DecidableRel createdLE := fun a b => Nat.decLe a.createdAt b.createdAt

instance : IsTotal OutboxEvent createdLE := ⟨fun a b => Nat.le_total a.createdAt b.createdAt⟩

instance : IsTrans OutboxEvent createdLE := ⟨fun _ _ _ h h2 => Nat.le_trans h h2⟩

/-- The tick's batch query (`worker` line 27):
`OutboxEvent.find({status: "PENDING"}).sort({createdAt: 1}).limit(BATCH)`. -/
def selectBatch (s : Store) : List OutboxEvent :=
  ((s.outbox.filter fun e => e.status = Status.PENDING).insertionSort createdLE).take BATCH

/-- Effect of the success-path `updateOne` filter `{_id: i, status: "PENDING"}`
with `$set {status: "SENT", lastError: null}` on one stored document. -/
def sentUpdate (i : ℕ) (e : OutboxEvent) : OutboxEvent :=
  if e.id = i ∧ e.status = Status.PENDING
  then { e with status := Status.SENT, lastError := none } else e

/-- Effect of the failure-path `updateOne` filter `{_id: i}` with
`$set {status: "FAILED", lastError: err}` on one stored document. -/
def failedUpdate (i : ℕ) (err : String) (e : OutboxEvent) : OutboxEvent :=
  if e.id = i then { e with status := Status.FAILED, lastError := some err } else e

/-- The success-path update (`worker` line 31):
`updateOne({_id: evt._id, status: "PENDING"}, {$set: {status: "SENT", lastError: null}})`.
MongoDB matches on the unique `_id`, so this is a guarded point update. -/
def markSent (s : Store) (i : ℕ) : Store :=
  { s with outbox := s.outbox.map (sentUpdate i) }

/-- The failure-path update (`worker` line 34):
`updateOne({_id: evt._id}, {$set: {status: "FAILED", lastError: String(err?.message || err)}})`
— note: no `status: "PENDING"` guard here. -/
def markFailed (s : Store) (i : ℕ) (err : String) : Store :=
  { s with outbox := s.outbox.map (failedUpdate i err) }

/-- One iteration of the per-event loop (`worker` lines 28-37): call the
publisher; a normal return (whatever its value) leads to the SENT update,
a thrown error is caught and leads to the FAILED update recording the
error's string form. -/
def processEvent (pub : OutboxEvent → Except String Bool) (s : Store) (evt : OutboxEvent) :
    Store :=
  match pub evt with
  | .ok _ => markSent s evt.id
  | .error err => markFailed s evt.id err

/-- One relay tick (`worker` lines 25-41): read the PENDING batch — a read
failure is caught, aborting the tick with the store unchanged — then process
the selected events sequentially in order. -/
def tick (readFails : Bool) (pub : OutboxEvent → Except String Bool) (s : Store) : Store :=
  if readFails then s
  else (selectBatch s).foldl (processEvent pub) s

/-- The environment of one tick: whether the batch read fails, and the
publisher's outcome for each event. -/
structure TickInput where
  readFails : Bool
  pub : OutboxEvent → Except String Bool

/-- A sequence of relay ticks. -/
def runTicks (ts : List TickInput) (s : Store) : Store :=
  ts.foldl (fun s t => tick t.readFails t.pub s) s

/-- The store plus the log of publisher invocations. -/
structure World where
  store : Store
  published : List OutboxEvent
deriving DecidableEq, Repr

/-- The writer at world level: `POST /orders` only touches the store
(the handler never calls `publish`). -/
def createOrderW (w : World) (inp : CreateOrderInput) (failAt : Option (Fin 4 × String)) :
    World × Response :=
  let r := createOrder w.store inp failAt
  ({ store := r.1, published := w.published }, r.2)

/-- The relay's per-event loop body at world level: the publish call is
made (logged), then its outcome is recorded in the store. -/
def processEventW (pub : OutboxEvent → Except String Bool) (w : World) (evt : OutboxEvent) :
    World :=
  { store := processEvent pub w.store evt, published := w.published ++ [evt] }

/-- One relay tick at world level. -/
def tickW (readFails : Bool) (pub : OutboxEvent → Except String Bool) (w : World) : World :=
  if readFails then w
  else (selectBatch w.store).foldl (processEventW pub) w

/-- Scenario A input: items `[{sku:"A1",unitPrice:10.00,quantity:3},
{sku:"B2",unitPrice:5.50,quantity:2}]`. -/
def inpA : CreateOrderInput :=
  { customerId := "cust-1", currency := "INR",
    items := [{ sku := "A1", name := "Item A", unitPrice := 10, quantity := 3 },
              { sku := "B2", name := "Item B", unitPrice := 11 / 2, quantity := 2 }] }

/-- The Order document committed by a successful `createOrder` on store `s`. -/
def writerOrder (s : Store) (inp : CreateOrderInput) : Order :=
  { id := s.nextId, customerId := inp.customerId, currency := inp.currency,
    status := "CONFIRMED",
    itemsSummary := (itemsWithTotalsOf inp.items).map fun i =>
      { sku := i.sku, quantity := i.quantity, lineTotal := i.lineTotal },
    grandTotal := grandTotalOf inp.items, createdAt := s.nextId }

/-- The OrderItem documents committed by a successful `createOrder` on store `s`. -/
def writerItems (s : Store) (inp : CreateOrderInput) : List OrderItem :=
  ((itemsWithTotalsOf inp.items).enum).map fun p =>
    { id := s.nextId + 1 + p.1, orderId := s.nextId, sku := p.2.sku, name := p.2.name,
      unitPrice := p.2.unitPrice, quantity := p.2.quantity, lineTotal := p.2.lineTotal }

/-- The OutboxEvent document committed by a successful `createOrder` on store `s`. -/
def writerEvent (s : Store) (inp : CreateOrderInput) : OutboxEvent :=
  { id := s.nextId + 1 + (itemsWithTotalsOf inp.items).length, type := "ORDER_CREATED",
    aggregateId := toString s.nextId,
    payload :=
      { orderId := toString s.nextId, customerId := inp.customerId,
        currency := inp.currency, grandTotal := grandTotalOf inp.items,
        items := itemsWithTotalsOf inp.items },
    status := .PENDING, lastError := none,
    createdAt := s.nextId + 1 + (itemsWithTotalsOf inp.items).length }

/-- A sample persisted order used by the C8 witness. -/
def ordA : Order :=
  { id := 7, customerId := "cust-7", currency := "INR", status := "CONFIRMED",
    itemsSummary := [], grandTotal := 0, createdAt := 3 }

/-- A sample store holding `ordA` only. -/
def storeA : Store := { orders := [ordA], orderItems := [], outbox := [], nextId := 8 }

/-- The pointwise effect on one stored document of processing `evt`. -/
def stepOf (pub : OutboxEvent → Except String Bool) (evt e : OutboxEvent) : OutboxEvent :=
  match pub evt with
  | .ok _ => sentUpdate evt.id e
  | .error err => failedUpdate evt.id err e

/-- The pointwise effect of processing the events of `batch` in order. -/
def applyChain (pub : OutboxEvent → Except String Bool) (batch : List OutboxEvent)
    (e : OutboxEvent) : OutboxEvent :=
  batch.foldl (fun acc evt => stepOf pub evt acc) e

/-- The fields a tick can never change: everything but status and lastError. -/
def immutableView (e : OutboxEvent) : ℕ × String × String × Payload × ℕ :=
  (e.id, e.type, e.aggregateId, e.payload, e.createdAt)

/-- A pending outbox event used by the relay witnesses. -/
def evt0 : OutboxEvent :=
  { id := 0, type := "ORDER_CREATED", aggregateId := "0",
    payload := { orderId := "0", customerId := "c0", currency := "INR",
                 grandTotal := 0, items := [] },
    status := Status.PENDING, lastError := none, createdAt := 5 }

/-- A second pending outbox event, created before `evt0`. -/
def evt1 : OutboxEvent := { evt0 with id := 1, aggregateId := "1", createdAt := 2 }

/-- An already-SENT outbox event. -/
def evt2 : OutboxEvent :=
  { evt0 with id := 2, aggregateId := "2", createdAt := 1, status := Status.SENT }

/-- A store holding two pending events (out of creation order) and a sent one. -/
def storeB : Store := { orders := [], orderItems := [], outbox := [evt0, evt1, evt2], nextId := 3 }

/-- A publisher that throws on `evt1` and answers normally otherwise. -/
def pubB : OutboxEvent → Except String Bool :=
  fun e => if e.id = 1 then .error "boom" else .ok true

/-! ## Theorems -/

/-- Claim C7 — any failing step makes `POST /orders` answer
`500 {error: "OrderCreationFailed"}`, whatever the step and whatever the
underlying cause: the cause never reaches the response. -/
theorem createOrder_failure_opaque (s : Store) (inp : CreateOrderInput)
    (k : Fin 4) (cause : String) :
    (createOrder s inp (some (k, cause))).2 =
      { status := 500, body := Body.failure "OrderCreationFailed" } := by
  fin_cases k <;> simp [createOrder, runTxn, stepFails]

/-- Normal form of the success path of `createOrder` (no failing step). -/
theorem createOrder_none_eq (s : Store) (inp : CreateOrderInput) :
    createOrder s inp none =
      ({ orders := s.orders ++ [writerOrder s inp],
         orderItems := s.orderItems ++ writerItems s inp,
         outbox := s.outbox ++ [writerEvent s inp],
         nextId := s.nextId + 1 + (itemsWithTotalsOf inp.items).length + 1 },
       { status := 201,
         body := Body.orderCreated s.nextId (grandTotalOf inp.items) inp.currency "CONFIRMED" }) :=
  rfl

/-- Normal form of a failing `createOrder`: abort, opaque 500. -/
theorem createOrder_some_eq (s : Store) (inp : CreateOrderInput) (k : Fin 4) (cause : String) :
    createOrder s inp (some (k, cause)) =
      (s, { status := 500, body := Body.failure "OrderCreationFailed" }) := by
  fin_cases k <;> rfl

/-- Claim C1 — atomicity of order creation: a failed attempt leaves the
store exactly as it was; a successful attempt appends the Order, all its
OrderItems (one per input item) and the OutboxEvent together. -/
theorem createOrder_atomic (s : Store) (inp : CreateOrderInput)
    (failAt : Option (Fin 4 × String)) :
    ((createOrder s inp failAt).2.status = 500 → (createOrder s inp failAt).1 = s) ∧
    ((createOrder s inp failAt).2.status = 201 →
      ∃ o its e, its.length = inp.items.length ∧
        (createOrder s inp failAt).1 =
          { orders := s.orders ++ [o], orderItems := s.orderItems ++ its,
            outbox := s.outbox ++ [e],
            nextId := (createOrder s inp failAt).1.nextId }) := by
  rcases failAt with _ | ⟨j, msg⟩
  · constructor
    · intro h
      rw [createOrder_none_eq] at h
      simp at h
    · intro _
      refine ⟨writerOrder s inp, writerItems s inp, writerEvent s inp, ?_, ?_⟩
      · simp [writerItems, itemsWithTotalsOf]
      · rw [createOrder_none_eq]
  · constructor
    · intro _
      rw [createOrder_some_eq]
    · intro h
      rw [createOrder_some_eq] at h
      simp at h

/-- Claim C2 — a successful `createOrder` appends exactly one OutboxEvent,
of type `ORDER_CREATED`, whose aggregate id is the string form of the
created Order's id and whose payload carries orderId, customerId,
currency, grandTotal and the full itemized list. -/
theorem createOrder_one_outbox_event (s : Store) (inp : CreateOrderInput)
    (failAt : Option (Fin 4 × String))
    (h : (createOrder s inp failAt).2.status = 201) :
    ∃ o e, (createOrder s inp failAt).1.orders = s.orders ++ [o] ∧
      (createOrder s inp failAt).1.outbox = s.outbox ++ [e] ∧
      e.type = "ORDER_CREATED" ∧
      e.aggregateId = toString o.id ∧
      e.status = Status.PENDING ∧
      e.payload.orderId = toString o.id ∧
      e.payload.customerId = inp.customerId ∧
      e.payload.currency = inp.currency ∧
      e.payload.grandTotal = grandTotalOf inp.items ∧
      e.payload.items = itemsWithTotalsOf inp.items := by
  rcases failAt with _ | ⟨j, msg⟩
  · refine ⟨writerOrder s inp, writerEvent s inp, ?_, ?_, rfl, rfl, rfl, rfl, rfl, rfl, rfl, rfl⟩
    · rw [createOrder_none_eq]
    · rw [createOrder_none_eq]
  · rw [createOrder_some_eq] at h
    simp at h

/-- The reduce-then-round of the source equals the rounded sum of rounded
line totals stated by the spec. -/
theorem grandTotalOf_eq_sum (items : List InputItem) :
    grandTotalOf items = round2 ((items.map lineTotalOf).sum) := by
  rw [grandTotalOf, List.sum_eq_foldl]
  congr 1
  simp [itemsWithTotalsOf, List.foldl_map]

/-- Claim C3 — for valid input, the persisted and returned `grandTotal` is
the half-up 2-decimal rounding of the sum of the per-item line totals,
each line total being `round(unitPrice * quantity, 2)`. -/
theorem grandTotal_rounded_sum (s : Store) (inp : CreateOrderInput)
    (hne : inp.items ≠ []) (hp : ∀ i ∈ inp.items, 0 ≤ i.unitPrice)
    (hq : ∀ i ∈ inp.items, 1 ≤ i.quantity) :
    ∃ o, (createOrder s inp none).1.orders = s.orders ++ [o] ∧
      o.grandTotal = round2 ((inp.items.map lineTotalOf).sum) ∧
      (createOrder s inp none).2 =
        { status := 201,
          body := Body.orderCreated o.id (round2 ((inp.items.map lineTotalOf).sum))
            inp.currency "CONFIRMED" } := by
  refine ⟨writerOrder s inp, ?_, ?_, ?_⟩
  · rw [createOrder_none_eq]
  · exact grandTotalOf_eq_sum inp.items
  · rw [createOrder_none_eq, ← grandTotalOf_eq_sum]
    rfl

/-- `find?` by id returns the member with that id when ids are duplicate-free. -/
theorem find?_id_eq_some (l : List Order) (o : Order)
    (hnd : (l.map fun x => x.id).Nodup) (ho : o ∈ l) :
    (l.find? fun x => x.id = o.id) = some o := by
  induction l with
  | nil => cases ho
  | cons a t ih =>
    rcases List.mem_cons.mp ho with rfl | hmem
    · exact List.find?_cons_of_pos t (by simp)
    · have hid : (a.id = o.id) = False := by
        simp only [List.map_cons, List.nodup_cons] at hnd
        have : o.id ∈ t.map fun x => x.id := List.mem_map.mpr ⟨o, hmem, rfl⟩
        simp only [eq_iff_iff, iff_false]
        intro hEq
        exact hnd.1 (hEq ▸ this)
      rw [List.find?_cons_of_neg, ih ?_ hmem]
      · simp only [List.map_cons, List.nodup_cons] at hnd
        exact hnd.2
      · simp [hid]

/-- Claim C8 — `GET /orders/:id`: 404 `NotFound` when no order has the id,
otherwise 200 with the order and its items. -/
theorem getOrder_spec (s : Store) (i : ℕ)
    (hnd : (s.orders.map fun o => o.id).Nodup) :
    ((∀ o ∈ s.orders, o.id ≠ i) →
      getOrder s i = { status := 404, body := Body.failure "NotFound" }) ∧
    (∀ o ∈ s.orders, o.id = i →
      getOrder s i =
        { status := 200,
          body := Body.orderDetail o (s.orderItems.filter fun it => it.orderId = o.id) }) := by
  constructor
  · intro h
    have hnone : (s.orders.find? fun o => o.id = i) = none :=
      List.find?_eq_none.mpr (by intro x hx; simpa using h x hx)
    simp [getOrder, hnone]
  · intro o ho hid
    subst hid
    simp [getOrder, find?_id_eq_some s.orders o hnd ho]

/-- Witness for C1: on the empty store with the Scenario A input, a failure
at the items step leaves the store empty, and the success path appends all
three records together. -/
theorem createOrder_atomic_witness :
    (createOrder emptyStore inpA (some (1, "db down"))).1 = emptyStore ∧
    (∃ o its e, its.length = inpA.items.length ∧
      (createOrder emptyStore inpA none).1 =
        { orders := emptyStore.orders ++ [o], orderItems := emptyStore.orderItems ++ its,
          outbox := emptyStore.outbox ++ [e],
          nextId := (createOrder emptyStore inpA none).1.nextId }) :=
  ⟨(createOrder_atomic emptyStore inpA (some (1, "db down"))).1 (by rw [createOrder_some_eq]),
   (createOrder_atomic emptyStore inpA none).2 (by rw [createOrder_none_eq])⟩

/-- Witness for C2: concrete successful call and its single outbox event. -/
theorem createOrder_one_outbox_event_witness :
    (createOrder emptyStore inpA none).2.status = 201 ∧
    ∃ o e, (createOrder emptyStore inpA none).1.orders = emptyStore.orders ++ [o] ∧
      (createOrder emptyStore inpA none).1.outbox = emptyStore.outbox ++ [e] ∧
      e.type = "ORDER_CREATED" ∧
      e.aggregateId = toString o.id ∧
      e.status = Status.PENDING ∧
      e.payload.orderId = toString o.id ∧
      e.payload.customerId = inpA.customerId ∧
      e.payload.currency = inpA.currency ∧
      e.payload.grandTotal = grandTotalOf inpA.items ∧
      e.payload.items = itemsWithTotalsOf inpA.items :=
  ⟨by rw [createOrder_none_eq],
   createOrder_one_outbox_event emptyStore inpA none (by rw [createOrder_none_eq])⟩

/-- Witness for C3: Scenario A — items `A1: 10.00 x 3` and `B2: 5.50 x 2`
give a persisted grand total of 41. -/
theorem grandTotal_rounded_sum_witness :
    inpA.items ≠ [] ∧ (∀ i ∈ inpA.items, 0 ≤ i.unitPrice) ∧
    (∀ i ∈ inpA.items, 1 ≤ i.quantity) ∧
    ∃ o, (createOrder emptyStore inpA none).1.orders = [o] ∧ o.grandTotal = 41 := by
  have hne : inpA.items ≠ [] := by simp [inpA]
  have hp : ∀ i ∈ inpA.items, 0 ≤ i.unitPrice := by
    intro i hi
    simp only [inpA, List.mem_cons, List.not_mem_nil, or_false] at hi
    rcases hi with rfl | rfl <;> norm_num
  have hq : ∀ i ∈ inpA.items, 1 ≤ i.quantity := by
    intro i hi
    simp only [inpA, List.mem_cons, List.not_mem_nil, or_false] at hi
    rcases hi with rfl | rfl <;> norm_num
  refine ⟨hne, hp, hq, ?_⟩
  obtain ⟨o, h1, h2, h3⟩ := grandTotal_rounded_sum emptyStore inpA hne hp hq
  refine ⟨o, by simpa [emptyStore] using h1, ?_⟩
  rw [h2]
  norm_num [inpA, lineTotalOf, round2, jsRound]

/-- Witness for C8: a missing id answers 404, an existing one answers 200
with the order and its (empty) item list. -/
theorem getOrder_spec_witness :
    getOrder emptyStore 3 = { status := 404, body := Body.failure "NotFound" } ∧
    getOrder storeA 7 = { status := 200, body := Body.orderDetail ordA [] } :=
  ⟨(getOrder_spec emptyStore 3 (by simp [emptyStore])).1 (by simp [emptyStore]),
   by
    have h := (getOrder_spec storeA 7 (by simp [storeA])).2 ordA
      (by simp [storeA]) (by simp [ordA])
    simpa [storeA] using h⟩

theorem applyChain_cons (pub) (b : OutboxEvent) (bs : List OutboxEvent) (e : OutboxEvent) :
    applyChain pub (b :: bs) e = applyChain pub bs (stepOf pub b e) := rfl

theorem stepOf_of_ok (pub) {evt : OutboxEvent} {v : Bool} (h : pub evt = .ok v)
    (e : OutboxEvent) : stepOf pub evt e = sentUpdate evt.id e := by
  unfold stepOf
  rw [h]

theorem stepOf_of_error (pub) {evt : OutboxEvent} {err : String} (h : pub evt = .error err)
    (e : OutboxEvent) : stepOf pub evt e = failedUpdate evt.id err e := by
  unfold stepOf
  rw [h]

theorem processEvent_eq_map (pub) (s : Store) (evt : OutboxEvent) :
    processEvent pub s evt = { s with outbox := s.outbox.map (stepOf pub evt) } := by
  cases h : pub evt with
  | ok v =>
    have hf : stepOf pub evt = sentUpdate evt.id := funext (stepOf_of_ok pub h)
    simp [processEvent, h, markSent, hf]
  | error err =>
    have hf : stepOf pub evt = failedUpdate evt.id err := funext (stepOf_of_error pub h)
    simp [processEvent, h, markFailed, hf]

theorem foldl_processEvent_eq_map (pub) :
    ∀ (batch : List OutboxEvent) (s : Store),
      batch.foldl (processEvent pub) s =
        { s with outbox := s.outbox.map (applyChain pub batch) } := by
  intro batch
  induction batch with
  | nil =>
    intro s
    show s = { s with outbox := s.outbox.map fun e => e }
    rw [List.map_id']
  | cons b bs ih =>
    intro s
    rw [List.foldl_cons, processEvent_eq_map, ih]
    simp only [List.map_map]
    rfl

theorem tick_false_eq (pub) (s : Store) :
    tick false pub s = { s with outbox := s.outbox.map (applyChain pub (selectBatch s)) } :=
  foldl_processEvent_eq_map pub (selectBatch s) s

theorem tick_true_eq (pub) (s : Store) : tick true pub s = s := rfl

theorem sentUpdate_id (i : ℕ) (e : OutboxEvent) : (sentUpdate i e).id = e.id := by
  unfold sentUpdate
  split <;> rfl

theorem failedUpdate_id (i : ℕ) (err : String) (e : OutboxEvent) :
    (failedUpdate i err e).id = e.id := by
  unfold failedUpdate
  split <;> rfl

theorem stepOf_id (pub) (evt e : OutboxEvent) : (stepOf pub evt e).id = e.id := by
  unfold stepOf
  cases pub evt
  · exact failedUpdate_id _ _ _
  · exact sentUpdate_id _ _

theorem applyChain_id (pub) (batch : List OutboxEvent) :
    ∀ e : OutboxEvent, (applyChain pub batch e).id = e.id := by
  induction batch with
  | nil => intro e; rfl
  | cons b bs ih =>
    intro e
    rw [applyChain_cons, ih, stepOf_id]

theorem sentUpdate_immutableView (i : ℕ) (e : OutboxEvent) :
    immutableView (sentUpdate i e) = immutableView e := by
  unfold sentUpdate
  split <;> rfl

theorem failedUpdate_immutableView (i : ℕ) (err : String) (e : OutboxEvent) :
    immutableView (failedUpdate i err e) = immutableView e := by
  unfold failedUpdate
  split <;> rfl

theorem stepOf_immutableView (pub) (evt e : OutboxEvent) :
    immutableView (stepOf pub evt e) = immutableView e := by
  unfold stepOf
  cases pub evt
  · exact failedUpdate_immutableView _ _ _
  · exact sentUpdate_immutableView _ _

theorem applyChain_immutableView (pub) (batch : List OutboxEvent) :
    ∀ e : OutboxEvent, immutableView (applyChain pub batch e) = immutableView e := by
  induction batch with
  | nil => intro e; rfl
  | cons b bs ih =>
    intro e
    rw [applyChain_cons, ih, stepOf_immutableView]

theorem stepOf_of_ne (pub) {evt e : OutboxEvent} (h : ¬ e.id = evt.id) :
    stepOf pub evt e = e := by
  cases hp : pub evt with
  | error err =>
    rw [stepOf_of_error pub hp]
    unfold failedUpdate
    rw [if_neg h]
  | ok v =>
    rw [stepOf_of_ok pub hp]
    unfold sentUpdate
    rw [if_neg]
    intro hc
    exact h hc.1

theorem applyChain_of_forall_ne (pub) {batch : List OutboxEvent} {e : OutboxEvent}
    (h : ∀ b ∈ batch, ¬ b.id = e.id) : applyChain pub batch e = e := by
  induction batch with
  | nil => rfl
  | cons b bs ih =>
    rw [applyChain_cons, stepOf_of_ne pub (fun hc => h b (List.mem_cons_self b bs) hc.symm)]
    exact ih fun x hx => h x (List.mem_cons_of_mem b hx)

theorem applyChain_mem_step (pub) {batch : List OutboxEvent}
    (hnd : (batch.map fun e => e.id).Nodup) {e : OutboxEvent} (he : e ∈ batch) :
    applyChain pub batch e = stepOf pub e e := by
  induction batch with
  | nil => cases he
  | cons b bs ih =>
    simp only [List.map_cons, List.nodup_cons] at hnd
    rcases List.mem_cons.mp he with rfl | hmem
    · rw [applyChain_cons]
      refine applyChain_of_forall_ne pub ?_
      intro x hx hxe
      rw [stepOf_id] at hxe
      exact hnd.1 (hxe ▸ List.mem_map.mpr ⟨x, hx, rfl⟩)
    · rw [applyChain_cons, stepOf_of_ne pub ?_]
      · exact ih hnd.2 hmem
      · intro hc
        exact hnd.1 (hc ▸ List.mem_map.mpr ⟨e, hmem, rfl⟩)

theorem selectBatch_mem {s : Store} {e : OutboxEvent} (he : e ∈ selectBatch s) :
    e ∈ s.outbox ∧ e.status = Status.PENDING := by
  have h1 : e ∈ (s.outbox.filter fun x => x.status = Status.PENDING).insertionSort createdLE :=
    (List.take_sublist _ _).subset he
  have h2 : e ∈ s.outbox.filter fun x => x.status = Status.PENDING :=
    (List.perm_insertionSort createdLE _).subset h1
  have h3 := List.mem_filter.mp h2
  exact ⟨h3.1, by simpa using h3.2⟩

theorem selectBatch_nodup {s : Store} (hnd : (s.outbox.map fun e => e.id).Nodup) :
    ((selectBatch s).map fun e => e.id).Nodup := by
  have h1 : ((s.outbox.filter fun x => x.status = Status.PENDING).map fun e => e.id).Nodup :=
    ((List.filter_sublist s.outbox).map fun e => e.id).nodup hnd
  have h2 : (((s.outbox.filter fun x => x.status = Status.PENDING).insertionSort
      createdLE).map fun e => e.id).Nodup :=
    (((List.perm_insertionSort createdLE
        (s.outbox.filter fun x => x.status = Status.PENDING)).map fun e =>
          e.id).symm.nodup h1)
  exact (((List.take_sublist BATCH _).map fun e : OutboxEvent => e.id).nodup h2)

theorem nodup_id_inj {l : List OutboxEvent} (hnd : (l.map fun e => e.id).Nodup)
    {a b : OutboxEvent} (ha : a ∈ l) (hb : b ∈ l) (h : a.id = b.id) : a = b :=
  List.inj_on_of_nodup_map hnd ha hb h

theorem map_id_of_applyChain (pub) (batch : List OutboxEvent) :
    ∀ l : List OutboxEvent,
      ((l.map (applyChain pub batch)).map fun x => x.id) = l.map fun x => x.id := by
  intro l
  induction l with
  | nil => rfl
  | cons a t ih => simp [applyChain_id, ih]

theorem map_immutable_of_applyChain (pub) (batch : List OutboxEvent) :
    ∀ l : List OutboxEvent,
      ((l.map (applyChain pub batch)).map immutableView) = l.map immutableView := by
  intro l
  induction l with
  | nil => rfl
  | cons a t ih => simp [applyChain_immutableView, ih]

/-- Claim C5 — a tick selects at most BATCH = 50 PENDING events, in
ascending creation-time order, and processes exactly that list
sequentially in that order. -/
theorem relay_batch_policy (s : Store) (pub : OutboxEvent → Except String Bool) :
    (selectBatch s).length ≤ BATCH ∧
    (∀ e ∈ selectBatch s, e.status = Status.PENDING) ∧
    List.Pairwise createdLE (selectBatch s) ∧
    tick false pub s = (selectBatch s).foldl (processEvent pub) s := by
  refine ⟨?_, ?_, ?_, rfl⟩
  · exact List.length_take_le _ _
  · exact fun e he => (selectBatch_mem he).2
  · exact List.Pairwise.sublist (List.take_sublist _ _)
      (List.sorted_insertionSort createdLE
        (s.outbox.filter fun x => x.status = Status.PENDING))

/-- Witness for C5 at a concrete store with events created out of order. -/
theorem relay_batch_policy_witness :
    (selectBatch storeB).length ≤ BATCH ∧
    (∀ e ∈ selectBatch storeB, e.status = Status.PENDING) ∧
    List.Pairwise createdLE (selectBatch storeB) ∧
    tick false publish storeB = (selectBatch storeB).foldl (processEvent publish) storeB :=
  relay_batch_policy storeB publish

/-- One tick never touches a non-PENDING record (given unique ids), and
keeps ids duplicate-free. -/
theorem tick_nonpending_frame (rf : Bool) (pub) (s : Store)
    (hnd : (s.outbox.map fun e => e.id).Nodup)
    {e : OutboxEvent} (he : e ∈ s.outbox) (hterm : e.status ≠ Status.PENDING) :
    e ∈ (tick rf pub s).outbox ∧
    (∀ e2 ∈ (tick rf pub s).outbox, e2.id = e.id → e2 = e) ∧
    ((tick rf pub s).outbox.map fun x => x.id).Nodup := by
  cases rf with
  | true =>
    exact ⟨he, fun e2 h2 hid => nodup_id_inj hnd h2 he hid, hnd⟩
  | false =>
    rw [tick_false_eq]
    have hne : ∀ b ∈ selectBatch s, ¬ b.id = e.id := by
      intro b hb hbe
      have hmem := selectBatch_mem hb
      have hbeq : b = e := nodup_id_inj hnd hmem.1 he hbe
      rw [hbeq] at hmem
      exact hterm hmem.2
    have hfix : applyChain pub (selectBatch s) e = e := applyChain_of_forall_ne pub hne
    refine ⟨?_, ?_, ?_⟩
    · exact hfix ▸ List.mem_map_of_mem (applyChain pub (selectBatch s)) he
    · intro e2 h2 hid
      obtain ⟨e0, he0, rfl⟩ := List.mem_map.mp h2
      rw [applyChain_id] at hid
      have he0e : e0 = e := nodup_id_inj hnd he0 he hid
      rw [he0e, hfix]
    · rw [map_id_of_applyChain]
      exact hnd

/-- A guarded SENT update is the identity when the matching record is no
longer PENDING. -/
theorem map_sentUpdate_eq_self (i : ℕ) :
    ∀ l : List OutboxEvent,
      (∀ e2 ∈ l, e2.id = i → e2.status ≠ Status.PENDING) → l.map (sentUpdate i) = l := by
  intro l
  induction l with
  | nil => intro _; rfl
  | cons a t ih =>
    intro hl
    have ha : sentUpdate i a = a := by
      unfold sentUpdate
      rw [if_neg]
      rintro ⟨h1, h2⟩
      exact hl a (List.mem_cons_self a t) h1 h2
    rw [List.map_cons, ha, ih fun x hx => hl x (List.mem_cons_of_mem a hx)]

/-- Claim C4 — outbox status transitions are one-way from PENDING and
terminal: across any sequence of ticks, a record that is already SENT or
FAILED is never changed again, and the success-path write is a no-op
whenever the matching record is no longer PENDING. -/
theorem outbox_status_terminal (ts : List TickInput) (s : Store)
    (hnd : (s.outbox.map fun e => e.id).Nodup)
    (e : OutboxEvent) (he : e ∈ s.outbox) (hterm : e.status ≠ Status.PENDING) :
    (e ∈ (runTicks ts s).outbox ∧
      ∀ e2 ∈ (runTicks ts s).outbox, e2.id = e.id → e2 = e) ∧
    (∀ (s2 : Store) (i : ℕ),
      (∀ e2 ∈ s2.outbox, e2.id = i → e2.status ≠ Status.PENDING) →
      markSent s2 i = s2) := by
  constructor
  · induction ts generalizing s with
    | nil => exact ⟨he, fun e2 h2 hid => nodup_id_inj hnd h2 he hid⟩
    | cons t tl ih =>
      obtain ⟨hmem, _, hnd2⟩ := tick_nonpending_frame t.readFails t.pub s hnd he hterm
      exact ih (tick t.readFails t.pub s) hnd2 hmem
  · intro s2 i hno
    show { s2 with outbox := s2.outbox.map (sentUpdate i) } = s2
    rw [map_sentUpdate_eq_self i s2.outbox hno]

/-- Witness for C4: the already-SENT event `evt2` of `storeB` survives two
ticks (one of them with a failing batch read) unchanged. -/
theorem outbox_status_terminal_witness :
    (storeB.outbox.map fun e => e.id).Nodup ∧
    evt2 ∈ storeB.outbox ∧ evt2.status ≠ Status.PENDING ∧
    ((evt2 ∈ (runTicks [⟨false, publish⟩, ⟨true, publish⟩] storeB).outbox ∧
      ∀ e2 ∈ (runTicks [⟨false, publish⟩, ⟨true, publish⟩] storeB).outbox,
        e2.id = evt2.id → e2 = evt2) ∧
     (∀ (s2 : Store) (i : ℕ),
       (∀ e2 ∈ s2.outbox, e2.id = i → e2.status ≠ Status.PENDING) →
       markSent s2 i = s2)) :=
  ⟨by decide, by decide, by decide,
   outbox_status_terminal [⟨false, publish⟩, ⟨true, publish⟩] storeB
     (by decide) evt2 (by decide) (by decide)⟩

/-- In a tick, a batch event whose publish throws ends FAILED with the
error recorded. -/
theorem tick_batch_err (s : Store) (pub) (hnd : (s.outbox.map fun e => e.id).Nodup)
    {e : OutboxEvent} (he : e ∈ selectBatch s) {err : String} (herr : pub e = .error err) :
    ∀ e2 ∈ (tick false pub s).outbox, e2.id = e.id →
      e2.status = Status.FAILED ∧ e2.lastError = some err := by
  intro e2 h2 hid
  rw [tick_false_eq] at h2
  obtain ⟨e0, he0, rfl⟩ := List.mem_map.mp h2
  rw [applyChain_id] at hid
  have he0e : e0 = e := nodup_id_inj hnd he0 (selectBatch_mem he).1 hid
  subst he0e
  rw [applyChain_mem_step pub (selectBatch_nodup hnd) he, stepOf_of_error pub herr]
  unfold failedUpdate
  rw [if_pos rfl]
  exact ⟨rfl, rfl⟩

/-- In a tick, a batch event whose publish returns normally ends SENT with
the error cleared — whatever value the publisher returned. -/
theorem tick_batch_ok (s : Store) (pub) (hnd : (s.outbox.map fun e => e.id).Nodup)
    {e : OutboxEvent} (he : e ∈ selectBatch s) {v : Bool} (hok : pub e = .ok v) :
    ∀ e2 ∈ (tick false pub s).outbox, e2.id = e.id →
      e2.status = Status.SENT ∧ e2.lastError = none := by
  intro e2 h2 hid
  rw [tick_false_eq] at h2
  obtain ⟨e0, he0, rfl⟩ := List.mem_map.mp h2
  rw [applyChain_id] at hid
  have he0e : e0 = e := nodup_id_inj hnd he0 (selectBatch_mem he).1 hid
  subst he0e
  rw [applyChain_mem_step pub (selectBatch_nodup hnd) he, stepOf_of_ok pub hok]
  unfold sentUpdate
  rw [if_pos ⟨rfl, (selectBatch_mem he).2⟩]
  exact ⟨rfl, rfl⟩

/-- Claim C6 (amended) — per-event failure isolation in a tick: an event
whose publish throws is marked FAILED with the error's string form, the
other events of the batch are still processed (each one that returns
normally is marked SENT), and a failing batch read aborts only that tick,
leaving the store unchanged. -/
theorem relay_failure_isolated (s : Store) (pub : OutboxEvent → Except String Bool)
    (hnd : (s.outbox.map fun e => e.id).Nodup) :
    (∀ e ∈ selectBatch s, ∀ err, pub e = .error err →
      ∀ e2 ∈ (tick false pub s).outbox, e2.id = e.id →
        e2.status = Status.FAILED ∧ e2.lastError = some err) ∧
    (∀ e ∈ selectBatch s, ∀ v, pub e = .ok v →
      ∀ e2 ∈ (tick false pub s).outbox, e2.id = e.id →
        e2.status = Status.SENT ∧ e2.lastError = none) ∧
    (∀ pub2, tick true pub2 s = s) :=
  ⟨fun _ he err herr => tick_batch_err s pub hnd he herr,
   fun _ he v hok => tick_batch_ok s pub hnd he hok,
   fun _ => rfl⟩

/-- Witness for C6: in `storeB`, publishing `evt1` throws and marks it
FAILED with the error recorded, while `evt0`, later in the same batch, is
still processed and marked SENT. -/
theorem relay_failure_isolated_witness :
    (storeB.outbox.map fun e => e.id).Nodup ∧
    ((tick false pubB storeB).outbox.map fun e => (e.id, e.status, e.lastError)) =
      [(0, Status.SENT, none), (1, Status.FAILED, some "boom"), (2, Status.SENT, none)] ∧
    (∀ e ∈ selectBatch storeB, ∀ err, pubB e = .error err →
      ∀ e2 ∈ (tick false pubB storeB).outbox, e2.id = e.id →
        e2.status = Status.FAILED ∧ e2.lastError = some err) :=
  ⟨by decide, by decide, (relay_failure_isolated storeB pubB (by decide)).1⟩

/-- Counterexample to C6 as stated: a Publisher that signals failure by
its return value (returns `false`, does not throw).  The claim says the
event's status is set to FAILED; the code marks it SENT, because only a
thrown error reaches the catch block. -/
theorem relay_value_failure_marked_sent :
    ((tick false (fun _ => Except.ok false) storeB).outbox.map
      fun e => (e.id, e.status, e.lastError)) =
      [(0, Status.SENT, none), (1, Status.SENT, none), (2, Status.SENT, none)] ∧
    Status.SENT ≠ Status.FAILED := by
  decide

/-- A chain of normally-returning publishes never touches a record that is
not PENDING. -/
theorem applyChain_ok_nonpending (pub) (hok : ∀ b, ∃ v, pub b = Except.ok v) :
    ∀ (l : List OutboxEvent) (e : OutboxEvent),
      e.status ≠ Status.PENDING → applyChain pub l e = e := by
  intro l
  induction l with
  | nil => intro e _; rfl
  | cons b bs ih =>
    intro e h
    obtain ⟨v, hv⟩ := hok b
    have hb : stepOf pub b e = e := by
      rw [stepOf_of_ok pub hv]
      unfold sentUpdate
      rw [if_neg]
      rintro ⟨_, h2⟩
      exact h h2
    rw [applyChain_cons, hb]
    exact ih e h

/-- Under the always-ok `publish` stub, a chain either leaves a record
alone or leaves it SENT. -/
theorem applyChain_publish_sent_or_same :
    ∀ (l : List OutboxEvent) (e : OutboxEvent),
      applyChain publish l e = e ∨ (applyChain publish l e).status = Status.SENT := by
  intro l
  induction l with
  | nil => intro e; left; rfl
  | cons b bs ih =>
    intro e
    rw [applyChain_cons, stepOf_of_ok publish rfl]
    unfold sentUpdate
    split
    · rw [applyChain_ok_nonpending publish (fun _ => ⟨true, rfl⟩) bs _ (by simp)]
      right
      rfl
    · exact ih e

/-- Claim C10 — the shipped `publish` is a stub that always returns
success: every selected PENDING event of a tick is marked SENT, and no
record ever becomes FAILED (all FAILED records in the output were already
in the store). -/
theorem publish_stub_all_sent (s : Store)
    (hnd : (s.outbox.map fun e => e.id).Nodup) :
    (∀ evt, publish evt = Except.ok true) ∧
    (∀ e ∈ selectBatch s, ∀ e2 ∈ (tick false publish s).outbox, e2.id = e.id →
      e2.status = Status.SENT ∧ e2.lastError = none) ∧
    (∀ e2 ∈ (tick false publish s).outbox, e2.status = Status.FAILED → e2 ∈ s.outbox) := by
  refine ⟨fun _ => rfl, ?_, ?_⟩
  · intro e he e2 h2 hid
    exact tick_batch_ok s publish hnd he rfl e2 h2 hid
  · intro e2 h2 hf
    rw [tick_false_eq] at h2
    obtain ⟨e0, he0, rfl⟩ := List.mem_map.mp h2
    rcases applyChain_publish_sent_or_same (selectBatch s) e0 with heq | hs
    · rw [heq]
      exact he0
    · rw [hf] at hs
      cases hs

/-- Witness for C10: on `storeB` both pending events end SENT and nothing
is FAILED. -/
theorem publish_stub_all_sent_witness :
    (storeB.outbox.map fun e => e.id).Nodup ∧
    ((tick false publish storeB).outbox.map fun e => (e.id, e.status, e.lastError)) =
      [(0, Status.SENT, none), (1, Status.SENT, none), (2, Status.SENT, none)] ∧
    (∀ e2 ∈ (tick false publish storeB).outbox, e2.status = Status.FAILED →
      e2 ∈ storeB.outbox) :=
  ⟨by decide, by decide, (publish_stub_all_sent storeB (by decide)).2.2⟩

theorem foldl_processEventW_store (pub) :
    ∀ (batch : List OutboxEvent) (w : World),
      (batch.foldl (processEventW pub) w).store = batch.foldl (processEvent pub) w.store := by
  intro batch
  induction batch with
  | nil => intro w; rfl
  | cons b bs ih =>
    intro w
    rw [List.foldl_cons, List.foldl_cons]
    exact ih _

theorem tickW_store_eq (rf : Bool) (pub) (w : World) :
    (tickW rf pub w).store = tick rf pub w.store := by
  cases rf with
  | true => rfl
  | false => exact foldl_processEventW_store pub (selectBatch w.store) w

/-- Claim C9 — ownership discipline: the writer's world step never touches
the publish transport (it only writes the Entity Store), and a relay tick
never touches Orders or OrderItems and changes nothing of an OutboxEvent
except status and lastError. -/
theorem ownership_frame (w : World) (inp : CreateOrderInput)
    (failAt : Option (Fin 4 × String)) (rf : Bool)
    (pub : OutboxEvent → Except String Bool) :
    ((createOrderW w inp failAt).1.published = w.published) ∧
    ((tickW rf pub w).store.orders = w.store.orders) ∧
    ((tickW rf pub w).store.orderItems = w.store.orderItems) ∧
    ((tickW rf pub w).store.outbox.map immutableView = w.store.outbox.map immutableView) := by
  refine ⟨rfl, ?_, ?_, ?_⟩
  · rw [tickW_store_eq]
    cases rf with
    | true => rfl
    | false => rw [tick_false_eq]
  · rw [tickW_store_eq]
    cases rf with
    | true => rfl
    | false => rw [tick_false_eq]
  · rw [tickW_store_eq]
    cases rf with
    | true => rfl
    | false =>
      rw [tick_false_eq]
      exact map_immutable_of_applyChain pub (selectBatch w.store) w.store.outbox

end Outbox
